import Mathlib

/-!
Shallow embedding of `src/app.py` (a Streamlit page driving the Apify
Google-search scraper): the request-payload construction (`build_tbs` and the
actor-input dict of `run_actor_and_get_items`) and the response flattening
(`flatten_organic`).

Python strings are Lean `String`s, Python `None` is `Option.none`, a
`datetime.date` is an `Int` counting days since 1970-01-01, and `date.today()`
is passed to `build_tbs` as an explicit `today` parameter.  All string data in
the claims is ASCII, and lower-casing is modelled by the ASCII `Char.toLower`.
-/

/-- Characters removed by Python `str.strip()` (the ASCII whitespace set:
space, tab, newline, carriage return, vertical tab, form feed). -/
def pySpace (c : Char) : Bool :=
  c.toNat == 32 || c.toNat == 9 || c.toNat == 10 || c.toNat == 13 ||
    c.toNat == 11 || c.toNat == 12

/-- Python `str.strip()` on a character list: drop whitespace at both ends. -/
def stripChars (l : List Char) : List Char :=
  ((l.dropWhile pySpace).reverse.dropWhile pySpace).reverse

/-- Python `s.strip()`. -/
def pyStrip (s : String) : String := ⟨stripChars s.data⟩

/-- Python `s.lower()` (ASCII letters only; every string the claims touch is ASCII). -/
def lowStr (s : String) : String := ⟨s.data.map Char.toLower⟩

/-- Does the first list occur at the start of the second? -/
def isPrefOf : List Char → List Char → Bool
  | [], _ => true
  | _ :: _, [] => false
  | a :: as, b :: bs => a == b && isPrefOf as bs

/-- Python substring test `n in h` on character lists. -/
def hasSub (n : List Char) : List Char → Bool
  | [] => n.isEmpty
  | c :: t => isPrefOf n (c :: t) || hasSub n t

/-- Python `needle in hay` on strings. -/
def containsSub (hay needle : String) : Bool := hasSub needle.data hay.data

/-- One atom of the regex pattern pandas compiles for `str.contains`: a literal
character, or `none` for `.` (any character except a newline). -/
def wildMatch : List (Option Char) → List Char → Bool
  | [], _ => true
  | _ :: _, [] => false
  | p :: ps, c :: cs =>
    (match p with | none => c != '\n' | some a => a == c) && wildMatch ps cs

/-- Python `re.search`: does the pattern match at some position of the text? -/
def reSearch (pat : List (Option Char)) : List Char → Bool
  | [] => wildMatch pat []
  | c :: t => wildMatch pat (c :: t) || reSearch pat t

/-- The vendor redirect-wrapper pattern `"google.com/url"` as the regex pandas
compiles it in `df["link"].str.contains("google.com/url", na=False)`: the two
dots are wildcards. -/
def redirectPat : List (Option Char) :=
  "google.com/url".data.map (fun c => if c = '.' then none else some c)

/-- Does a link match the redirect-wrapper pattern? -/
def isRedirect (s : String) : Bool := reSearch redirectPat s.data

/-- Python `a or b` on optional strings: `a` unless it is falsy (absent or empty). -/
def pyOr (a b : Option String) : Option String :=
  match a with
  | some s => if s = "" then b else some s
  | none => b

/-- Day count since 1970-01-01 to (year, month, day) in the proleptic Gregorian
calendar (Hinnant's civil-from-days algorithm; Lean `Int` division truncates
exactly like the C++ original). -/
def civilFromDays (z0 : Int) : Int × Nat × Nat :=
  let z := z0 + 719468
  let era : Int := (if 0 ≤ z then z else z - 146096) / 146097
  let doe : Nat := (z - era * 146097).toNat
  let yoe : Nat := (doe - doe / 1460 + doe / 36524 - doe / 146096) / 365
  let doy : Nat := doe - (365 * yoe + yoe / 4 - yoe / 100)
  let mp : Nat := (5 * doy + 2) / 153
  let d : Nat := doy - (153 * mp + 2) / 5 + 1
  let m : Nat := if mp < 10 then mp + 3 else mp - 9
  ((yoe : Int) + era * 400 + (if m ≤ 2 then 1 else 0), m, d)

/-- Zero-padding to two digits, as `strftime` does for `%m` and `%d`. -/
def pad2 (n : Nat) : String := if n < 10 then "0" ++ toString n else toString n

/-- Python `d.strftime('%m/%d/%Y')`. -/
def fmtDate (z : Int) : String :=
  let c := civilFromDays z
  pad2 c.2.1 ++ "/" ++ pad2 c.2.2 ++ "/" ++ toString c.1

/-- The preset as `build_tbs` normalizes it first thing: `preset.strip().lower()`. -/
def presetNorm (p : String) : String := lowStr (pyStrip p)

/-- The seven preset strings `build_tbs` recognizes (in normalized form). -/
def recognizedPresets : List String :=
  ["any time", "last 24 hours", "last 48 hours", "last 7 days", "last 30 days",
   "last 12 months", "custom range"]

/-- Body of `build_tbs` after the preset has been normalized: the chain of
early-return comparisons.  For "last 48 hours" the code overwrites `start` and
`end` with `today - timedelta(days=2)` and `today`; for "custom range" it
returns `None` when either bound is falsy (a `date` is always truthy, so this
is a `None` check), and otherwise formats the window without comparing the
bounds. -/
def tbsChain (today : Int) (p : String) (start e : Option Int) : Option String :=
  if p = "any time" then none
  else if p = "last 24 hours" then some "qdr:d"
  else if p = "last 48 hours" then
    some ("cdr:1,cd_min:" ++ fmtDate (today - 2) ++ ",cd_max:" ++ fmtDate today)
  else if p = "last 7 days" then some "qdr:w"
  else if p = "last 30 days" then some "qdr:m"
  else if p = "last 12 months" then some "qdr:y"
  else if p = "custom range" then
    match start, e with
    | some s, some en =>
      some ("cdr:1,cd_min:" ++ fmtDate s ++ ",cd_max:" ++ fmtDate en)
    | _, _ => none
  else none

/-- Lean rendering of `build_tbs(preset, start, end)` from `src/app.py`;
`today` models `date.today()`. -/
def build_tbs (today : Int) (preset : String) (start e : Option Int) : Option String :=
  tbsChain today (presetNorm preset) start e

/-- A value of the actor-input dict. -/
inductive PVal where
  | qlist : List String → PVal
  | num : Nat → PVal
  | str : String → PVal
deriving DecidableEq

/-- The actor-input dict built by `run_actor_and_get_items`, as an ordered
key/value list.  `PVal.qlist qs` stands for the wrapped list
`[{"query": q} for q in qs]`; the `tbs` key is added only under Python
truthiness (`if tbs:`), i.e. when `tbs` is a non-empty string. -/
def buildPayload (queries : List String) (maxPagesPerQuery : Nat)
    (countryCode languageCode safeSearch : String) (tbs : Option String) :
    List (String × PVal) :=
  let payload := [("queries", PVal.qlist queries),
                  ("maxPagesPerQuery", PVal.num maxPagesPerQuery),
                  ("countryCode", PVal.str countryCode),
                  ("languageCode", PVal.str languageCode),
                  ("safeSearch", PVal.str safeSearch)]
  match tbs with
  | some t => if t = "" then payload else payload ++ [("tbs", PVal.str t)]
  | none => payload

/-- A call of `run_actor_and_get_items` in which `none` means the caller
omitted that keyword argument, so the Python default applies
(`max_pages_per_query=1`, `country_code="US"`, `language_code="en"`,
`safe_search="active"`, `tbs=None`). -/
def callPayload (queries : List String) (maxPages : Option Nat)
    (country language safe : Option String) (tbs : Option String) :
    List (String × PVal) :=
  buildPayload queries (maxPages.getD 1) (country.getD "US") (language.getD "en")
    (safe.getD "active") tbs

/-- One organic result record, holding the fields `flatten_organic` reads.
Absent dict keys are `none`. -/
structure OrganicResult where
  title : Option String := none
  url : Option String := none
  link : Option String := none
  snippet : Option String := none
  description : Option String := none
  source : Option String := none
  date : Option String := none
deriving DecidableEq

/-- One dataset item, holding the fields `flatten_organic` reads.  Absent dict
keys are `none`. -/
structure Item where
  query : Option String := none
  searchQuery : Option String := none
  search : Option String := none
  organicResults : Option (List OrganicResult) := none
  organic_results : Option (List OrganicResult) := none
  title : Option String := none
  url : Option String := none
  link : Option String := none
  snippet : Option String := none
  description : Option String := none
  source : Option String := none
  date : Option String := none
deriving DecidableEq

/-- A dict appended to `rows` in the first loop of `flatten_organic`. -/
structure Row where
  query : String
  title : Option String
  link : Option String
  snippet : Option String
  source : Option String
  date : Option String
deriving DecidableEq

/-- A row after `dropna(subset=["link"])` and `astype(str).str.strip()`:
the link is now a plain string. -/
structure SRow where
  query : String
  title : Option String
  link : String
  snippet : Option String
  source : Option String
  date : Option String
deriving DecidableEq

/-- A final output row of `flatten_organic`, fields in the order of its `cols`
list. -/
structure FlatRow where
  likely_pr : Bool
  query : String
  title : Option String
  source : Option String
  date : Option String
  link : String
  snippet : Option String
deriving DecidableEq

/-- Python expression `it.get("query") or it.get("searchQuery") or it.get("search") or ""`. -/
def queryOf (it : Item) : String :=
  (pyOr (pyOr it.query it.searchQuery) it.search).getD ""

/-- Python `a or b` on optional result lists (an empty list is falsy). -/
def pyOrL (a b : Option (List OrganicResult)) : Option (List OrganicResult) :=
  match a with
  | some l => if l = [] then b else some l
  | none => b

/-- Python expression `it.get("organicResults") or it.get("organic_results") or []`. -/
def organicOf (it : Item) : List OrganicResult :=
  (pyOrL it.organicResults it.organic_results).getD []

/-- The rows one item contributes in the first loop of `flatten_organic`: one
row per organic result when the organic list is non-empty, otherwise the
single-item fallback guarded by `if link:` (Python truthiness, so an absent or
empty link contributes nothing). -/
def rowsOfItem (it : Item) : List Row :=
  let q := queryOf it
  let og := organicOf it
  if og.isEmpty then
    match pyOr it.url it.link with
    | some l =>
      if l = "" then []
      else [{ query := q, title := it.title, link := some l,
              snippet := pyOr it.snippet it.description,
              source := it.source, date := it.date }]
    | none => []
  else
    og.map (fun r =>
      { query := q, title := r.title, link := pyOr r.url r.link,
        snippet := pyOr r.snippet r.description,
        source := r.source, date := r.date })

/-- The `rows` list after the first loop of `flatten_organic`. -/
def extractRows (items : List Item) : List Row := items.flatMap rowsOfItem

/-- One row through `dropna` + `astype(str).str.strip()` (callers only apply it
to rows whose link is present; `getD` keeps it total). -/
def toS (r : Row) : SRow :=
  { query := r.query, title := r.title, link := pyStrip (r.link.getD ""),
    snippet := r.snippet, source := r.source, date := r.date }

/-- Rows after `dropna(subset=["link"])`, link stripping, and the
redirect-wrapper filter, in order. -/
def preRows (items : List Item) : List SRow :=
  (((extractRows items).filter (fun r => r.link.isSome)).map toS).filter
    (fun s => !isRedirect s.link)

/-- Pandas `drop_duplicates(subset=["link"])`: keep the first row for each link. -/
def dedupRows (seen : List String) : List SRow → List SRow
  | [] => []
  | r :: rs =>
    if r.link ∈ seen then dedupRows seen rs
    else r :: dedupRows (r.link :: seen) rs

/-- The fixed keyword list `kw` of `flatten_organic`. -/
def kwList : List String :=
  ["new study", "survey", "report", "findings", "new research", "announced",
   "press release"]

/-- Python expression `any(k in s for k in kw)` applied to
`df["snippet"].fillna("").str.lower()`. -/
def prCalc (snippet : Option String) : Bool :=
  kwList.any (fun k => containsSub (lowStr (snippet.getD "")) k)

/-- Attach the derived `likely_pr` column and lay the fields out in the order
of the `cols` list. -/
def addLikelyPr (r : SRow) : FlatRow :=
  { likely_pr := prCalc r.snippet, query := r.query, title := r.title,
    source := r.source, date := r.date, link := r.link, snippet := r.snippet }

/-- Lean rendering of `flatten_organic(items)` from `src/app.py`.  The
`isEmpty` test is the `if df.empty: return df` early return. -/
def flatten_organic (items : List Item) : List FlatRow :=
  if (extractRows items).isEmpty then []
  else (dedupRows [] (preRows items)).map addLikelyPr

/-- Modelled from the spec: the `flatten_organic` in `src/app.py` takes no
`excludePattern` argument (that parameter exists only in other revisions of
this repository, which are not under `src/`).  Per spec section 4.2, exclusion
filters apply in order: (a) the vendor redirect-wrapper filter, then (b) "if
`excludePattern` supplied, case-insensitively drop URLs matching it" — matching
meaning substring containment — followed by de-duplication. -/
def flatten_organic_ex (items : List Item) (excludePattern : Option String) :
    List FlatRow :=
  if (extractRows items).isEmpty then []
  else
    (dedupRows []
      (match excludePattern with
       | some p =>
         (preRows items).filter (fun s => !containsSub (lowStr s.link) (lowStr p))
       | none => preRows items)).map addLikelyPr

/-- A `FlatRow` viewed as an input record for a second `flatten_organic` pass;
the derived `likely_pr` key is carried in the dict but never read by
`flatten_organic`, and the row has no organic-results or url keys. -/
def rowToItem (r : FlatRow) : Item :=
  { query := some r.query, title := r.title, link := some r.link,
    snippet := r.snippet, source := r.source, date := r.date }

/-- The `Row` a re-fed `FlatRow` reduces to after the first loop (used to state
the idempotence theorems). -/
def flatToRow (r : FlatRow) : Row :=
  { query := r.query, title := r.title, link := some r.link,
    snippet := r.snippet, source := r.source, date := r.date }

/-- The `SRow` a re-fed `FlatRow` reduces to after stripping (used to state the
idempotence theorems). -/
def flatToS (r : FlatRow) : SRow :=
  { query := r.query, title := r.title, link := r.link,
    snippet := r.snippet, source := r.source, date := r.date }

/-! Helper lemmas about the string primitives. -/

theorem toNat_ofNat_small (n : Nat) (h : n < 55296) : (Char.ofNat n).toNat = n := by
  unfold Char.ofNat
  rw [dif_pos (Or.inl h)]
  rfl

theorem toLower_toLower (c : Char) : c.toLower.toLower = c.toLower := by
  unfold Char.toLower
  by_cases h : 65 ≤ c.toNat ∧ c.toNat ≤ 90
  · have ht : (Char.ofNat (c.toNat + 32)).toNat = c.toNat + 32 :=
      toNat_ofNat_small _ (by omega)
    simp only [ge_iff_le, h, and_self, if_true, ht]
    rw [if_neg (by omega)]
  · simp only [ge_iff_le, h, if_false]

theorem pySpace_toLower (c : Char) : pySpace c.toLower = pySpace c := by
  unfold Char.toLower
  by_cases h : 65 ≤ c.toNat ∧ c.toNat ≤ 90
  · have ht : (Char.ofNat (c.toNat + 32)).toNat = c.toNat + 32 :=
      toNat_ofNat_small _ (by omega)
    simp only [ge_iff_le, h, and_self, if_true]
    have e1 : pySpace (Char.ofNat (c.toNat + 32)) = false := by
      simp only [pySpace, ht, Bool.or_eq_false_iff, beq_eq_false_iff_ne, ne_eq]
      omega
    have e2 : pySpace c = false := by
      simp only [pySpace, Bool.or_eq_false_iff, beq_eq_false_iff_ne, ne_eq]
      omega
    rw [e1, e2]
  · simp only [ge_iff_le, h, if_false]

theorem dropWhile_idem (p : α → Bool) (l : List α) :
    (l.dropWhile p).dropWhile p = l.dropWhile p := by
  induction l with
  | nil => rfl
  | cons a t ih =>
    by_cases h : p a
    · simp [List.dropWhile_cons, h, ih]
    · simp [List.dropWhile_cons, h]

theorem dropWhile_eq_self_of_pref (p : α → Bool) {m n : List α} (hpre : m <+: n)
    (hn : n.dropWhile p = n) : m.dropWhile p = m := by
  cases m with
  | nil => rfl
  | cons a t =>
    obtain ⟨s, rfl⟩ := hpre
    rw [List.cons_append] at hn
    have ha : p a = false := by
      by_contra hcon
      have ha' : p a = true := by
        cases hpa : p a
        · exact absurd hpa hcon
        · rfl
      rw [List.dropWhile_cons, if_pos ha'] at hn
      have hlen : (List.dropWhile p (t ++ s)).length ≤ (t ++ s).length :=
        (List.dropWhile_suffix p).length_le
      have hlen2 := congrArg List.length hn
      simp only [List.length_cons, List.length_append] at hlen hlen2
      omega
    rw [List.dropWhile_cons, if_neg (by simp [ha])]

theorem stripChars_idem (l : List Char) : stripChars (stripChars l) = stripChars l := by
  unfold stripChars
  have hAdrop : (l.dropWhile pySpace).dropWhile pySpace = l.dropWhile pySpace :=
    dropWhile_idem _ _
  have hBpre : ((l.dropWhile pySpace).reverse.dropWhile pySpace).reverse <+:
      l.dropWhile pySpace := by
    have hsuf : (l.dropWhile pySpace).reverse.dropWhile pySpace <:+
        (l.dropWhile pySpace).reverse := List.dropWhile_suffix pySpace
    have := List.reverse_prefix.mpr hsuf
    simpa using this
  have hB : (((l.dropWhile pySpace).reverse.dropWhile pySpace).reverse).dropWhile pySpace =
      ((l.dropWhile pySpace).reverse.dropWhile pySpace).reverse :=
    dropWhile_eq_self_of_pref _ hBpre hAdrop
  rw [hB, List.reverse_reverse, dropWhile_idem]

theorem pyStrip_idem (s : String) : pyStrip (pyStrip s) = pyStrip s := by
  unfold pyStrip
  exact congrArg String.mk (stripChars_idem s.data)

theorem stripChars_map_toLower (l : List Char) :
    stripChars (l.map Char.toLower) = (stripChars l).map Char.toLower := by
  unfold stripChars
  have hps : (pySpace ∘ Char.toLower) = pySpace := funext pySpace_toLower
  rw [List.dropWhile_map, hps, ← List.map_reverse, List.dropWhile_map, hps,
    ← List.map_reverse]

theorem lowStr_pyStrip_comm (s : String) : pyStrip (lowStr s) = lowStr (pyStrip s) := by
  unfold pyStrip lowStr
  exact congrArg String.mk (stripChars_map_toLower s.data)

theorem lowStr_idem (s : String) : lowStr (lowStr s) = lowStr s := by
  unfold lowStr
  refine congrArg String.mk ?_
  rw [List.map_map]
  exact List.map_congr_left (fun a _ => toLower_toLower a)

theorem presetNorm_idem (p : String) : presetNorm (presetNorm p) = presetNorm p := by
  unfold presetNorm
  rw [lowStr_pyStrip_comm, pyStrip_idem, lowStr_idem]

/-! Claim theorems about `build_tbs` and the payload. -/

/-- Claim C1, counterexample: with recency "custom range" and a start date
(epoch day 5, 1970-01-06) strictly after the end date (epoch day 2,
1970-01-03), `build_tbs` silently produces an explicit date-window payload
instead of failing with a `ValidationError`. -/
theorem build_tbs_custom_cex :
    (2 : Int) < 5 ∧
    build_tbs 0 "custom range" (some 5) (some 2) =
      some "cdr:1,cd_min:01/06/1970,cd_max:01/03/1970" := by
  exact ⟨by decide, rfl⟩

/-- Claim C1 (amended): for the "custom range" selector `build_tbs` never
fails; it returns `none` (meaning: no recency filter at all, the request still
goes out) when either bound is missing, and when both bounds are supplied it
returns the explicit window unconditionally, even when start is after end. -/
theorem build_tbs_custom_silent (today : Int) :
    (∀ e, build_tbs today "custom range" none e = none) ∧
    (∀ s, build_tbs today "custom range" s none = none) ∧
    (∀ s e, build_tbs today "custom range" (some s) (some e) =
      some ("cdr:1,cd_min:" ++ fmtDate s ++ ",cd_max:" ++ fmtDate e)) := by
  refine ⟨fun e => rfl, fun s => ?_, fun s e => rfl⟩
  cases s <;> rfl

/-- Claim C4: for the "last 48 hours" selector, `build_tbs` always returns the
explicit custom date window whose end is the current date and whose start is
the current date minus 2 days, regardless of any caller-supplied start/end. -/
theorem build_tbs_last48 (today : Int) (s e : Option Int) :
    build_tbs today "last 48 hours" s e =
      some ("cdr:1,cd_min:" ++ fmtDate (today - 2) ++ ",cd_max:" ++ fmtDate today) := rfl

/-- Claim C2, counterexample: the caller omits the country code (so the Python
default applies), yet the payload still carries a `countryCode` key (value
"US"); the key is not absent as the claim requires. -/
theorem payload_country_default_cex :
    ("countryCode", PVal.str "US") ∈ callPayload ["q"] none none none none none := by
  decide

/-- Claim C2 (amended): the payload always carries the query list, the page
count, the country code, the language code and the safe-search mode (the last
three filled with the defaults "US"/"en"/"active" when the caller supplies
nothing); only the recency-filter key `tbs` is conditional, present exactly
when a non-empty `tbs` string is supplied. -/
theorem payload_fields (qs : List String) (mp : Nat) (c l s : String)
    (tbs : Option String) :
    ("queries" ∈ (buildPayload qs mp c l s tbs).map Prod.fst) ∧
    ("maxPagesPerQuery" ∈ (buildPayload qs mp c l s tbs).map Prod.fst) ∧
    ("countryCode" ∈ (buildPayload qs mp c l s tbs).map Prod.fst) ∧
    ("languageCode" ∈ (buildPayload qs mp c l s tbs).map Prod.fst) ∧
    ("safeSearch" ∈ (buildPayload qs mp c l s tbs).map Prod.fst) ∧
    (("tbs" ∈ (buildPayload qs mp c l s tbs).map Prod.fst) ↔
      ∃ t, tbs = some t ∧ t ≠ "") := by
  cases tbs with
  | none => simp [buildPayload]
  | some t =>
    by_cases h : t = "" <;> simp [buildPayload, h]

/-- Claim C10: the recency translation is total: `build_tbs` first normalizes
the selector by trimming surrounding whitespace and lower-casing (so matching
is case- and surrounding-whitespace-insensitive), and any selector whose
normalized form is none of the seven recognized strings yields `none` (no
recency filter), never an error. -/
theorem build_tbs_preset_insensitive (today : Int) (s e : Option Int) :
    (∀ p, build_tbs today p s e = build_tbs today (presetNorm p) s e) ∧
    (∀ p, presetNorm p ∉ recognizedPresets → build_tbs today p s e = none) := by
  constructor
  · intro p
    unfold build_tbs
    rw [presetNorm_idem]
  · intro p h
    simp only [recognizedPresets, List.mem_cons, List.not_mem_nil, or_false,
      not_or] at h
    obtain ⟨h1, h2, h3, h4, h5, h6, h7⟩ := h
    unfold build_tbs tbsChain
    simp [h1, h2, h3, h4, h5, h6, h7]

/-- Claim C10, witness: a concrete unrecognized selector (with stray case and
whitespace) yields no filter. -/
theorem build_tbs_preset_insensitive_w :
    build_tbs 0 " NONSENSE " none none = none :=
  (build_tbs_preset_insensitive 0 none none).2 " NONSENSE " (by decide)

/-! Helper lemmas about de-duplication and membership in the flattening pipeline. -/

theorem mem_of_mem_dedupRows {r : SRow} (seen : List String) (l : List SRow)
    (h : r ∈ dedupRows seen l) : r ∈ l := by
  induction l generalizing seen with
  | nil => exact absurd h (by simp [dedupRows])
  | cons a t ih =>
    unfold dedupRows at h
    by_cases hm : a.link ∈ seen
    · rw [if_pos hm] at h
      exact List.mem_cons_of_mem _ (ih _ h)
    · rw [if_neg hm] at h
      rcases List.mem_cons.mp h with h1 | h2
      · exact h1 ▸ List.mem_cons_self _ _
      · exact List.mem_cons_of_mem _ (ih _ h2)

theorem dedupRows_filter (u : String) (seen : List String) (l : List SRow) :
    (dedupRows seen l).filter (fun r => r.link == u) =
      if u ∈ seen then [] else (l.filter (fun r => r.link == u)).take 1 := by
  induction l generalizing seen with
  | nil => simp [dedupRows]
  | cons r rs ih =>
    unfold dedupRows
    by_cases hm : r.link ∈ seen
    · rw [if_pos hm, ih]
      by_cases hu : r.link = u
      · subst hu
        rw [if_pos hm, if_pos hm]
      · rw [List.filter_cons_of_neg (by simp [hu])]
    · rw [if_neg hm]
      by_cases hu : r.link = u
      · subst hu
        rw [List.filter_cons_of_pos (by simp), ih,
          if_pos (List.mem_cons_self _ _), if_neg hm,
          List.filter_cons_of_pos (by simp)]
        simp
      · rw [List.filter_cons_of_neg (by simp [hu]), ih,
          List.filter_cons_of_neg (by simp [hu])]
        by_cases hs : u ∈ seen
        · rw [if_pos (List.mem_cons_of_mem _ hs), if_pos hs]
        · rw [if_neg ?_, if_neg hs]
          intro hmem
          rcases List.mem_cons.mp hmem with h1 | h2
          · exact hu h1.symm
          · exact hs h2

theorem dedupRows_not_mem_seen (seen : List String) (l : List SRow) (r : SRow)
    (h : r ∈ dedupRows seen l) : r.link ∉ seen := by
  induction l generalizing seen with
  | nil => simp [dedupRows] at h
  | cons a t ih =>
    unfold dedupRows at h
    by_cases hm : a.link ∈ seen
    · rw [if_pos hm] at h
      exact ih _ h
    · rw [if_neg hm] at h
      rcases List.mem_cons.mp h with h1 | h2
      · exact h1 ▸ hm
      · intro hc
        exact ih _ h2 (List.mem_cons_of_mem _ hc)

theorem dedupRows_links_nodup (seen : List String) (l : List SRow) :
    ((dedupRows seen l).map (fun r => r.link)).Nodup := by
  induction l generalizing seen with
  | nil => simp [dedupRows]
  | cons a t ih =>
    unfold dedupRows
    by_cases hm : a.link ∈ seen
    · rw [if_pos hm]
      exact ih _
    · rw [if_neg hm]
      simp only [List.map_cons, List.nodup_cons]
      refine ⟨fun hc => ?_, ih _⟩
      obtain ⟨r, hr, he⟩ := List.mem_map.mp hc
      exact dedupRows_not_mem_seen _ _ _ hr (he ▸ List.mem_cons_self _ _)

theorem dedupRows_eq_self (seen : List String) (l : List SRow)
    (hnd : (l.map (fun r => r.link)).Nodup) (hdisj : ∀ r ∈ l, r.link ∉ seen) :
    dedupRows seen l = l := by
  induction l generalizing seen with
  | nil => rfl
  | cons a t ih =>
    simp only [List.map_cons, List.nodup_cons] at hnd
    unfold dedupRows
    rw [if_neg (hdisj a (List.mem_cons_self _ _))]
    congr 1
    refine ih _ hnd.2 ?_
    intro r hr hc
    rcases List.mem_cons.mp hc with h1 | h2
    · exact hnd.1 (h1 ▸ List.mem_map.mpr ⟨r, hr, rfl⟩)
    · exact hdisj r (List.mem_cons_of_mem _ hr) h2

theorem flatten_mem_decomp {items : List Item} {r : FlatRow}
    (h : r ∈ flatten_organic items) : ∃ s ∈ preRows items, r = addLikelyPr s := by
  unfold flatten_organic at h
  by_cases he : (extractRows items).isEmpty
  · rw [if_pos he] at h
    simp at h
  · rw [if_neg he] at h
    obtain ⟨s, hs, he2⟩ := List.mem_map.mp h
    exact ⟨s, mem_of_mem_dedupRows _ _ hs, he2.symm⟩

theorem preRows_mem_decomp {items : List Item} {s : SRow} (h : s ∈ preRows items) :
    ∃ r0 ∈ extractRows items, ∃ l, r0.link = some l ∧ s = toS r0 ∧
      isRedirect s.link = false := by
  unfold preRows at h
  have h1 := List.mem_of_mem_filter h
  have hred := List.of_mem_filter h
  obtain ⟨r0, hr0, he⟩ := List.mem_map.mp h1
  have hr0' := List.mem_of_mem_filter hr0
  have hsome := List.of_mem_filter hr0
  obtain ⟨l, hl⟩ := Option.isSome_iff_exists.mp hsome
  exact ⟨r0, hr0', l, hl, he.symm, by simpa using hred⟩

/-! Claim theorems about `flatten_organic`. -/

/-- Claim C6, counterexample: an input page with two results carrying the
identical URL "http://google.com/url?q=a" produces zero output rows, not the
required exactly one row, because the shared URL matches the vendor
redirect-wrapper filter. -/
theorem flatten_dup_redirect_cex :
    flatten_organic
      [({ organicResults :=
            some [{ url := some "http://google.com/url?q=a" },
                  { url := some "http://google.com/url?q=a" }] } : Item)] = [] := rfl

/-- Claim C6 (amended): `flatten_organic` emits at most one row per URL, and
the rows it emits for a URL are exactly the first surviving pre-deduplication
occurrence (pages in input order, results within a page in input order, after
the missing-URL drop, stripping, and the redirect filter), carrying that
occurrence's field values; a duplicated URL filtered out earlier (e.g. one
matching the redirect pattern) yields zero rows rather than one. -/
theorem flatten_dedup_first (items : List Item) (u : String) :
    ((flatten_organic items).filter (fun r => r.link == u)).length ≤ 1 ∧
    (flatten_organic items).filter (fun r => r.link == u) =
      (((preRows items).filter (fun s => s.link == u)).take 1).map addLikelyPr := by
  have key : (flatten_organic items).filter (fun r => r.link == u) =
      (((preRows items).filter (fun s => s.link == u)).take 1).map addLikelyPr := by
    unfold flatten_organic
    by_cases he : (extractRows items).isEmpty
    · rw [if_pos he]
      have hpre : preRows items = [] := by
        unfold preRows
        rw [List.isEmpty_iff] at he
        rw [he]
        rfl
      rw [hpre]
      rfl
    · rw [if_neg he, List.filter_map]
      have hcomp : ((fun r : FlatRow => r.link == u) ∘ addLikelyPr) =
          (fun s : SRow => s.link == u) := rfl
      rw [hcomp, dedupRows_filter, if_neg (List.not_mem_nil u)]
  refine ⟨?_, key⟩
  rw [key]
  simp only [List.length_map, List.length_take]
  omega

/-- Claim C5, counterexample: a result whose URL is the whitespace-only string
" " is not dropped: it survives as an output row whose URL is empty after
stripping, contradicting "every emitted row has a non-empty URL". -/
theorem flatten_whitespace_url_cex :
    flatten_organic [({ organicResults := some [{ url := some " " }] } : Item)] =
      [{ likely_pr := false, query := "", title := none, source := none,
         date := none, link := "", snippet := none }] := rfl

/-- Claim C5 (amended): every row `flatten_organic` emits has a URL that is
the whitespace-stripped form of a URL that was present on some extracted input
row — results with an absent URL are dropped and never reach the output.  The
stripped URL is not guaranteed non-empty, however: a whitespace-only source
URL yields a row with an empty URL (see the counterexample). -/
theorem flatten_link_present_stripped (items : List Item) (r : FlatRow)
    (h : r ∈ flatten_organic items) :
    ∃ l : String, some l ∈ (extractRows items).map (fun x => x.link) ∧
      r.link = pyStrip l := by
  obtain ⟨s, hs, rfl⟩ := flatten_mem_decomp h
  obtain ⟨r0, hr0, l, hl, hse, _⟩ := preRows_mem_decomp hs
  refine ⟨l, List.mem_map.mpr ⟨r0, hr0, by rw [hl]⟩, ?_⟩
  rw [hse]
  simp [addLikelyPr, toS, hl]

/-- Claim C5, witness: the single output row for a padded URL has the stripped
form of a URL present in the input. -/
theorem flatten_link_present_stripped_w :
    ∃ l : String,
      some l ∈ (extractRows
        [({ organicResults := some [{ url := some " http://w.com/5 " }] } : Item)]).map
          (fun x => x.link) ∧
      ({ likely_pr := false, query := "", title := none, source := none,
         date := none, link := "http://w.com/5", snippet := none } : FlatRow).link =
        pyStrip l :=
  flatten_link_present_stripped _ _ (by decide)

/-- Claim C8: for every emitted row, the derived tag `likely_pr` is true
exactly when the lower-cased snippet/description carried by the row contains
one of the seven fixed keywords as a substring, and a row with an absent
snippet gets the tag false. -/
theorem flatten_likely_pr (items : List Item) (r : FlatRow)
    (h : r ∈ flatten_organic items) :
    (r.likely_pr = true ↔
      ∃ k ∈ kwList, containsSub (lowStr (r.snippet.getD "")) k = true) ∧
    (r.snippet = none → r.likely_pr = false) := by
  obtain ⟨s, hs, rfl⟩ := flatten_mem_decomp h
  constructor
  · show prCalc s.snippet = true ↔ _
    unfold prCalc
    rw [List.any_eq_true]
    rfl
  · intro hn
    have hn' : s.snippet = none := hn
    show prCalc s.snippet = false
    rw [hn']
    decide

/-- Claim C8, witness: a row whose description contains "SURVEY" (upper case)
gets the tag, and a row with no snippet at all gets tag false. -/
theorem flatten_likely_pr_w :
    (∃ k ∈ kwList, containsSub (lowStr "New SURVEY finds Y") k = true) ∧
    ({ likely_pr := false, query := "", title := none, source := none,
       date := none, link := "http://q.com/8", snippet := none } : FlatRow).likely_pr
      = false :=
  ⟨((flatten_likely_pr
      [{ query := some "B",
         organicResults :=
           some [{ url := some "http://y.com/2",
                   description := some "New SURVEY finds Y" }] }]
      { likely_pr := true, query := "B", title := none, source := none,
        date := none, link := "http://y.com/2",
        snippet := some "New SURVEY finds Y" } (by decide)).1).mp rfl,
   (flatten_likely_pr
      [{ organicResults := some [{ url := some "http://q.com/8" }] }]
      { likely_pr := false, query := "", title := none, source := none,
        date := none, link := "http://q.com/8", snippet := none }
      (by decide)).2 rfl⟩

/-- Claim C9, counterexample: a result carrying only a URL — but one matching
the redirect-wrapper pattern — yields zero rows, not the required exactly one
row with the URL set and other fields null. -/
theorem flatten_only_url_redirect_cex :
    flatten_organic
      [({ organicResults :=
            some [{ url := some "https://www.google.com/url?sa=t" }] } : Item)] =
      [] := rfl

/-- Claim C9 (amended): `flatten_organic` never fails on a result that has a
URL and no other field; provided the URL is non-empty (Python truthiness) and
its stripped form does not match the redirect-wrapper pattern, it emits exactly
one row for it: the stripped URL, title/source/date/snippet all null, the
page-level query the empty string, and the derived tag false. -/
theorem flatten_only_url (u : String) (h1 : u ≠ "")
    (h2 : isRedirect (pyStrip u) = false) :
    flatten_organic [({ organicResults := some [{ url := some u }] } : Item)] =
      [{ likely_pr := false, query := "", title := none, source := none,
         date := none, link := pyStrip u, snippet := none }] := by
  have hrow : extractRows [({ organicResults := some [{ url := some u }] } : Item)] =
      [{ query := "", title := none, link := some u, snippet := none,
         source := none, date := none }] := by
    unfold extractRows rowsOfItem
    simp [organicOf, pyOrL, queryOf, pyOr, h1]
  have hpr : prCalc none = false := by decide
  unfold flatten_organic preRows
  rw [hrow]
  simp [toS, h2, dedupRows, addLikelyPr, hpr]

/-- Claim C9, witness: a concrete only-URL result yields exactly the one row. -/
theorem flatten_only_url_w :
    flatten_organic
      [({ organicResults := some [{ url := some "http://x.com/9" }] } : Item)] =
      [{ likely_pr := false, query := "", title := none, source := none,
         date := none, link := pyStrip "http://x.com/9", snippet := none }] :=
  flatten_only_url "http://x.com/9" (by decide) (by decide)

/-- Claim C3 (spec-modelled `excludePattern`): when an exclusion pattern is
supplied, no emitted row's URL contains it case-insensitively — every result
whose URL contains the pattern, in any letter case, is dropped. -/
theorem flatten_ex_excludes (items : List Item) (p : String) (r : FlatRow)
    (h : r ∈ flatten_organic_ex items (some p)) :
    containsSub (lowStr r.link) (lowStr p) = false := by
  unfold flatten_organic_ex at h
  by_cases he : (extractRows items).isEmpty
  · rw [if_pos he] at h
    simp at h
  · rw [if_neg he] at h
    obtain ⟨s, hs, he2⟩ := List.mem_map.mp h
    have hs' := mem_of_mem_dedupRows _ _ hs
    have hpred := List.of_mem_filter hs'
    subst he2
    simpa [addLikelyPr] using hpred

/-- Claim C3, witness: with pattern "actionnetwork.org", the surviving row for
"http://x.com/1" does not contain the pattern case-insensitively. -/
theorem flatten_ex_excludes_w :
    containsSub (lowStr "http://x.com/1") (lowStr "actionnetwork.org") = false :=
  flatten_ex_excludes
    [({ query := some "A",
        organicResults := some [{ url := some "http://x.com/1" }] } : Item)]
    "actionnetwork.org"
    { likely_pr := false, query := "A", title := none, source := none,
      date := none, link := "http://x.com/1", snippet := none } (by decide)

/-! Lemmas for the idempotence claim. -/

theorem flatten_mem_inv (items : List Item) (r : FlatRow)
    (h : r ∈ flatten_organic items) :
    pyStrip r.link = r.link ∧ isRedirect r.link = false ∧
      r.likely_pr = prCalc r.snippet := by
  obtain ⟨s, hs, rfl⟩ := flatten_mem_decomp h
  obtain ⟨r0, hr0, l, hl, hse, hred⟩ := preRows_mem_decomp hs
  subst hse
  exact ⟨pyStrip_idem _, hred, rfl⟩

theorem flatten_links_nodup (items : List Item) :
    ((flatten_organic items).map (fun r => r.link)).Nodup := by
  unfold flatten_organic
  by_cases he : (extractRows items).isEmpty
  · rw [if_pos he]
    simp
  · rw [if_neg he, List.map_map]
    have hcomp : ((fun r : FlatRow => r.link) ∘ addLikelyPr) =
        (fun s : SRow => s.link) := rfl
    rw [hcomp]
    exact dedupRows_links_nodup _ _

theorem rowsOfItem_rowToItem (r : FlatRow) (h1 : r.link ≠ "")
    (h2 : r.snippet ≠ some "") : rowsOfItem (rowToItem r) = [flatToRow r] := by
  have hq : queryOf (rowToItem r) = r.query := by
    unfold queryOf rowToItem pyOr
    by_cases hq : r.query = "" <;> simp [hq]
  have hsn : pyOr (rowToItem r).snippet (rowToItem r).description = r.snippet := by
    unfold rowToItem pyOr
    cases hs : r.snippet with
    | none => rfl
    | some s =>
      have hne : ¬s = "" := fun hc => h2 (by rw [hs, hc])
      simp [hne]
  unfold rowsOfItem
  simp only [hq, hsn]
  have hog : organicOf (rowToItem r) = [] := rfl
  rw [hog]
  simp only [List.isEmpty_nil, if_true]
  have hlink : pyOr (rowToItem r).url (rowToItem r).link = some r.link := rfl
  rw [hlink]
  show (if r.link = "" then [] else [flatToRow r]) = [flatToRow r]
  rw [if_neg h1]

theorem extractRows_rowToItem (rows : List FlatRow)
    (h : ∀ r ∈ rows, r.link ≠ "" ∧ r.snippet ≠ some "") :
    extractRows (rows.map rowToItem) = rows.map flatToRow := by
  induction rows with
  | nil => rfl
  | cons a t ih =>
    have ha := h a (List.mem_cons_self _ _)
    rw [List.map_cons, List.map_cons]
    unfold extractRows
    rw [List.flatMap_cons, rowsOfItem_rowToItem a ha.1 ha.2]
    have ht : extractRows (t.map rowToItem) = t.map flatToRow :=
      ih (fun r hr => h r (List.mem_cons_of_mem _ hr))
    unfold extractRows at ht
    rw [ht]
    rfl

theorem flatten_fixedpoint (rows : List FlatRow)
    (hinv : ∀ r ∈ rows, pyStrip r.link = r.link ∧ isRedirect r.link = false ∧
      r.likely_pr = prCalc r.snippet ∧ r.link ≠ "" ∧ r.snippet ≠ some "")
    (hnd : (rows.map (fun r => r.link)).Nodup) :
    flatten_organic (rows.map rowToItem) = rows := by
  have hex : extractRows (rows.map rowToItem) = rows.map flatToRow :=
    extractRows_rowToItem rows (fun r hr =>
      ⟨(hinv r hr).2.2.2.1, (hinv r hr).2.2.2.2⟩)
  cases rows with
  | nil => rfl
  | cons a t =>
    have hfilt1 : (List.map flatToRow (a :: t)).filter (fun r => r.link.isSome) =
        List.map flatToRow (a :: t) := by
      refine List.filter_eq_self.mpr ?_
      intro x hx
      obtain ⟨r, hr, rfl⟩ := List.mem_map.mp hx
      rfl
    have hcong : List.map (toS ∘ flatToRow) (a :: t) = List.map flatToS (a :: t) := by
      refine List.map_congr_left ?_
      intro r hr
      show toS (flatToRow r) = flatToS r
      unfold toS flatToRow flatToS
      simp only [Option.getD_some]
      rw [(hinv r hr).1]
    have hfilt2 : (List.map flatToS (a :: t)).filter (fun s => !isRedirect s.link) =
        List.map flatToS (a :: t) := by
      refine List.filter_eq_self.mpr ?_
      intro x hx
      obtain ⟨r, hr, rfl⟩ := List.mem_map.mp hx
      have hred : isRedirect r.link = false := (hinv r hr).2.1
      show (!isRedirect (flatToS r).link) = true
      simp [flatToS, hred]
    have hdedup : dedupRows [] (List.map flatToS (a :: t)) =
        List.map flatToS (a :: t) := by
      refine dedupRows_eq_self _ _ ?_ (fun s hs => List.not_mem_nil _)
      rw [List.map_map]
      exact hnd
    have hfinal : List.map addLikelyPr (List.map flatToS (a :: t)) = a :: t := by
      rw [List.map_map]
      have hpt : ∀ r ∈ a :: t, (addLikelyPr ∘ flatToS) r = r := by
        intro r hr
        show addLikelyPr (flatToS r) = r
        have hl : r.likely_pr = prCalc r.snippet := (hinv r hr).2.2.1
        unfold addLikelyPr flatToS
        rw [← hl]
      rw [List.map_congr_left hpt]
      simp
    unfold flatten_organic preRows
    rw [hex, if_neg (by simp), hfilt1, List.map_map, hcong, hfilt2, hdedup, hfinal]

/-- Claim C7, counterexample: the output for a whitespace-only URL is a row
with an empty URL; feeding that already-normalized row sequence back through
`flatten_organic` drops the row (the fallback branch requires a truthy link),
so the second application does not reproduce the first. -/
theorem flatten_organic_idem_cex :
    flatten_organic ((flatten_organic
      [({ organicResults := some [{ url := some "  " }] } : Item)]).map rowToItem) ≠
    flatten_organic [({ organicResults := some [{ url := some "  " }] } : Item)] := by
  decide

/-- Claim C7 (amended): `flatten_organic` is idempotent on its own output
provided every produced row has a non-empty URL and a snippet that is not the
empty string (both hold for ordinary data; a whitespace-only source URL or an
empty-string snippet breaks the Python truthiness tests on the second pass —
see the counterexample). -/
theorem flatten_organic_idem (items : List Item)
    (h : ∀ r ∈ flatten_organic items, r.link ≠ "" ∧ r.snippet ≠ some "") :
    flatten_organic ((flatten_organic items).map rowToItem) =
      flatten_organic items := by
  apply flatten_fixedpoint
  · intro r hr
    obtain ⟨i1, i2, i3⟩ := flatten_mem_inv items r hr
    obtain ⟨j1, j2⟩ := h r hr
    exact ⟨i1, i2, i3, j1, j2⟩
  · exact flatten_links_nodup items

/-- Claim C7, witness: a concrete run whose output rows all have non-empty
URLs and non-empty snippets is reproduced exactly by a second application. -/
theorem flatten_organic_idem_w :
    flatten_organic ((flatten_organic
      [({ query := some "C",
          organicResults :=
            some [{ url := some "http://z.com/3",
                    snippet := some "report on Z" }] } : Item)]).map rowToItem) =
    flatten_organic
      [({ query := some "C",
          organicResults :=
            some [{ url := some "http://z.com/3",
                    snippet := some "report on Z" }] } : Item)] :=
  flatten_organic_idem _ (by decide)
